import Mathlib

/-!
Verification of the minion-swarm mailbox store and agent supervisor.

The definitions in this file are a shallow embedding of
`src/minion_swarm/watcher.py` (the SQLite-backed mailbox store) and
`src/minion_swarm/daemon.py` (the per-agent supervisor loop).  SQLite
tables become Lean lists, SQL statements become list transformations,
and each Python method becomes a pure function from the old state to
the new state together with its return value.  Python exceptions are
modelled with `Except`.
-/

namespace Swarm

/-- A row of the `messages` table
(schema: id, from_agent, to_agent, content, timestamp, read_flag, is_cc,
cc_original_to).  `id` is assigned by the store and strictly increasing. -/
structure Message where
  id : Nat
  from_agent : String
  to_agent : String
  content : String
  timestamp : String
  read_flag : Bool
  is_cc : Bool
  cc_original_to : Option String
deriving DecidableEq, Repr

/-- A row of the `agents` registry table. -/
structure AgentRow where
  name : String
  registered_at : String
  last_seen : String
  last_inbox_check : String
  role : Option String
  description : Option String
  status : String
deriving DecidableEq, Repr

/-- The persisted mailbox store: `messages`, `broadcast_reads`
(pairs agent_name × message_id) and `agents` tables, plus the next
auto-assigned message id. -/
structure MailboxState where
  messages : List Message
  broadcast_reads : List (String × Nat)
  agents : List AgentRow
  next_id : Nat
deriving DecidableEq, Repr

/-- Fresh store: empty tables, SQLite row ids start at 1. -/
def MailboxState.init : MailboxState := ⟨[], [], [], 1⟩

/-- The dataclass `CommsMessage` returned by `pop_next_message`. -/
structure CommsMessage where
  id : Nat
  from_agent : String
  to_agent : String
  content : String
  timestamp : String
  is_broadcast : Bool
  is_cc : Bool
  cc_original_to : Option String
deriving DecidableEq, Repr

/-- Direct branch of the dequeue query:
`to_agent = ? AND read_flag = 0`. -/
def isDirectCandidate (agent : String) (m : Message) : Bool :=
  m.to_agent == agent && m.read_flag == false

/-- Broadcast branch of the dequeue query: `to_agent = 'all'` with no
`broadcast_reads` row for this agent (`LEFT JOIN ... WHERE br.message_id IS NULL`). -/
def isBroadcastCandidate (reads : List (String × Nat)) (agent : String) (m : Message) : Bool :=
  m.to_agent == "all" && !(reads.contains (agent, m.id))

/-- The `UNION ALL` of the two dequeue branches, each row tagged with the
branch's `is_broadcast` literal (0 for direct, 1 for broadcast). -/
def unionCandidates (agent : String) (s : MailboxState) : List (Message × Bool) :=
  (s.messages.filter (isDirectCandidate agent)).map (fun m => (m, false))
    ++ (s.messages.filter (isBroadcastCandidate s.broadcast_reads agent)).map (fun m => (m, true))

/-- `ORDER BY id ASC LIMIT 1` over the union.  On an id tie (possible only
for an agent literally named "all") SQLite's choice is unspecified; the
model deterministically prefers the earlier row, i.e. the direct branch. -/
def selectNext (agent : String) (s : MailboxState) : Option (Message × Bool) :=
  (unionCandidates agent s).argmin (fun p => p.1.id)

/-- `UPDATE agents SET last_seen = ?, last_inbox_check = ? WHERE name = ?`. -/
def touchAgent (agent now : String) (rows : List AgentRow) : List AgentRow :=
  rows.map fun r =>
    if r.name == agent then { r with last_seen := now, last_inbox_check := now } else r

/-- `UPDATE messages SET read_flag = 1 WHERE id = ?`. -/
def markRead (mid : Nat) (msgs : List Message) : List Message :=
  msgs.map fun m => if m.id == mid then { m with read_flag := true } else m

/-- `INSERT OR IGNORE INTO broadcast_reads (agent_name, message_id)` with a
unique constraint on the pair. -/
def insertReadMarker (agent : String) (mid : Nat) (reads : List (String × Nat)) :
    List (String × Nat) :=
  if reads.contains (agent, mid) then reads else reads ++ [(agent, mid)]

/-- The `CommsMessage` built from a selected row and its branch tag. -/
def commsOf (m : Message) (isBroadcast : Bool) : CommsMessage :=
  ⟨m.id, m.from_agent, m.to_agent, m.content, m.timestamp, isBroadcast, m.is_cc, m.cc_original_to⟩

/-- `CommsWatcher.pop_next_message` (watcher.py lines 135-196): select the
lowest-id unread direct or unconsumed broadcast message; mark it consumed
(read flag for direct, read marker for broadcast); refresh the agent's
`last_seen`/`last_inbox_check` whether or not a message was found. -/
def pop_next_message (agent now : String) (s : MailboxState) :
    Option CommsMessage × MailboxState :=
  match selectNext agent s with
  | none => (none, { s with agents := touchAgent agent now s.agents })
  | some (m, isBroadcast) =>
      let message := commsOf m isBroadcast
      let s1 :=
        if isBroadcast then
          { s with broadcast_reads := insertReadMarker agent m.id s.broadcast_reads }
        else
          { s with messages := markRead m.id s.messages }
      (some message, { s1 with agents := touchAgent agent now s1.agents })

/-- The cc copy's content: `f"{content}\n\n[CC] originally to: {to_agent}"`. -/
def ccContent (content to_agent : String) : String :=
  content ++ "\n\n[CC] originally to: " ++ to_agent

/-- `CommsWatcher.send_message` (watcher.py lines 198-220): insert the
primary row (read_flag 0, is_cc 0); when `cc` is a non-empty name
(Python `if cc:`), insert a second row to the cc recipient with is_cc 1,
cc_original_to set, and annotated content.  Returns the primary row's id. -/
def send_message (from_agent to_agent content : String) (cc : Option String)
    (now : String) (s : MailboxState) : Nat × MailboxState :=
  let primary : Message :=
    ⟨s.next_id, from_agent, to_agent, content, now, false, false, none⟩
  let s1 : MailboxState :=
    { s with messages := s.messages ++ [primary], next_id := s.next_id + 1 }
  match cc with
  | some ccName =>
      if ccName ≠ "" then
        let ccRow : Message :=
          ⟨s1.next_id, from_agent, ccName, ccContent content to_agent, now,
            false, true, some to_agent⟩
        (primary.id, { s1 with messages := s1.messages ++ [ccRow], next_id := s1.next_id + 1 })
      else
        (primary.id, s1)
  | none => (primary.id, s1)

/-- `CommsWatcher.register_agent` (watcher.py lines 93-107): upsert keyed on
name; on conflict refresh `last_seen` and status, keep existing
role/description when the new value is NULL (`COALESCE`), and leave
`registered_at`/`last_inbox_check` untouched. -/
def register_agent (name : String) (role description : Option String)
    (status now : String) (s : MailboxState) : MailboxState :=
  if s.agents.any (fun r => r.name == name) then
    { s with
      agents := s.agents.map fun r =>
        if r.name == name then
          { r with
            last_seen := now
            role := match role with | some x => some x | none => r.role
            description := match description with | some x => some x | none => r.description
            status := status }
        else r }
  else
    { s with agents := s.agents ++ [⟨name, now, now, now, role, description, status⟩] }

/-- `CommsWatcher.set_agent_status`: update status and `last_seen`. -/
def set_agent_status (agent status now : String) (s : MailboxState) : MailboxState :=
  { s with
    agents := s.agents.map fun r =>
      if r.name == agent then { r with status := status, last_seen := now } else r }

/-- A store operation issued by some process against the shared mailbox. -/
inductive Op where
  | send (from_agent to_agent content : String) (cc : Option String) (now : String)
  | pop (agent now : String)
  | register (name : String) (role description : Option String) (status now : String)
  | setStatus (agent status now : String)
deriving DecidableEq, Repr

/-- State effect of one operation. -/
def execOp : Op → MailboxState → MailboxState
  | .send f t c cc now, s => (send_message f t c cc now s).2
  | .pop a now, s => (pop_next_message a now s).2
  | .register n r d st now, s => register_agent n r d st now s
  | .setStatus a st now, s => set_agent_status a st now s

/-- Run a sequence of store operations. -/
def runOps (ops : List Op) (s : MailboxState) : MailboxState :=
  ops.foldl (fun s op => execOp op s) s

/-! ## RollingBuffer (daemon.py lines 70-89) -/

/-- Total character count of a chunk list. -/
def sumLen (l : List String) : Nat := (l.map String.length).sum

/-- Bounded FIFO text accumulator.  `max_chars` is `max_tokens * 4`
(the token→character heuristic), `chunks` the retained deque and
`total_chars` the running size counter. -/
structure RollingBuffer where
  max_chars : Nat
  chunks : List String
  total_chars : Nat
deriving DecidableEq, Repr

/-- `RollingBuffer.__init__(max_tokens)`. -/
def RollingBuffer.ofTokens (max_tokens : Nat) : RollingBuffer :=
  ⟨max_tokens * 4, [], 0⟩

/-- The eviction loop
`while self._total_chars > self.max_chars and self._chunks: popleft`. -/
def evictLoop (maxChars : Nat) : List String → Nat → List String × Nat
  | [], total => ([], total)
  | c :: rest, total =>
      if total > maxChars then evictLoop maxChars rest (total - c.length)
      else (c :: rest, total)

/-- `RollingBuffer.append`: no-op on the empty string (Python `if not text`),
otherwise push the chunk and evict oldest chunks while over budget. -/
def RollingBuffer.append (b : RollingBuffer) (text : String) : RollingBuffer :=
  if text == "" then b
  else
    let r := evictLoop b.max_chars (b.chunks ++ [text]) (b.total_chars + text.length)
    { b with chunks := r.1, total_chars := r.2 }

/-- `RollingBuffer.snapshot`: concatenation of retained chunks in order. -/
def RollingBuffer.snapshot (b : RollingBuffer) : String := String.join b.chunks

/-- `RollingBuffer.__len__`. -/
def RollingBuffer.size (b : RollingBuffer) : Nat := b.total_chars

/-- A sequence of `append` calls. -/
def RollingBuffer.appendAll (b : RollingBuffer) (texts : List String) : RollingBuffer :=
  texts.foldl RollingBuffer.append b

/-- Spec reading of "the suffix of the concatenation of all appended text
that fits within B characters": the longest string suffix of `s` of length
at most `B`. -/
def charSuffixWithin (B : Nat) (s : String) : String :=
  ⟨(s.toList.reverse.take B).reverse⟩

/-- The longest suffix of a chunk list whose total length fits the budget;
this is what chunk-granular front eviction retains. -/
def maxChunkSuffixFit (B : Nat) : List String → List String
  | [] => []
  | c :: rest => if sumLen (c :: rest) ≤ B then c :: rest else maxChunkSuffixFit B rest

/-! ## Supervisor invocation results and resume protocol (daemon.py) -/

/-- `AgentRunResult` (daemon.py lines 60-67). -/
structure AgentRunResult where
  exit_code : Int
  timed_out : Bool
  compaction_detected : Bool
  command_name : String
  input_tokens : Nat := 0
  output_tokens : Nat := 0
deriving DecidableEq, Repr

/-- Result of `_run_with_optional_resume` together with the externally
visible effects: the new `resume_ready` flag and how many times each
command flavour was handed to `_run_command`. -/
structure ResumeOutcome where
  result : AgentRunResult
  resume_ready : Bool
  resume_invocations : Nat
  fresh_invocations : Nat
deriving DecidableEq, Repr

/-- `AgentDaemon._run_with_optional_resume` (daemon.py lines 540-548).
The environment's behaviour is supplied as the results the resume-flavoured
and fresh commands would produce when invoked. -/
def run_with_optional_resume (resume_ready : Bool)
    (resumeResult freshResult : AgentRunResult) : ResumeOutcome :=
  if resume_ready then
    if resumeResult.timed_out || resumeResult.exit_code == 0 then
      ⟨resumeResult, resume_ready, 1, 0⟩
    else
      ⟨freshResult, false, 1, 1⟩
  else
    ⟨freshResult, resume_ready, 0, 1⟩

/-! ## Supervisor loop state and failure handling (daemon.py) -/

/-- The mutable supervisor fields the loop bodies read and write. -/
structure DaemonState where
  consecutive_failures : Nat
  last_error : Option String
  resume_ready : Bool
  inject_history_next_turn : Bool
deriving DecidableEq, Repr

/-- Fresh daemon state (resume_ready as recovered from the snapshot). -/
def DaemonState.start (resume_ready : Bool) : DaemonState :=
  ⟨0, none, resume_ready, false⟩

/-- `AgentDaemon._process_prompt` (daemon.py lines 293-319) after
`_run_agent` returned `result`: record compaction, set `last_error` on
timeout or non-zero exit, set `resume_ready` on success.  Returns the
updated state and the `ok` flag. -/
def process_prompt_result (provider : String) (no_output_timeout_sec : Nat)
    (d : DaemonState) (result : AgentRunResult) : DaemonState × Bool :=
  let d :=
    if result.compaction_detected then { d with inject_history_next_turn := true } else d
  if result.timed_out then
    let err := provider ++ " produced no output for " ++ toString no_output_timeout_sec ++ "s"
    ({ d with last_error := some err }, false)
  else if result.exit_code ≠ 0 then
    let err := result.command_name ++ " exited with code " ++ toString result.exit_code
    ({ d with last_error := some err }, false)
  else
    ({ d with resume_ready := true }, true)

/-- Python `min(retry_backoff_sec * (2 ** (failures - 1)), retry_backoff_max_sec)`
with the exponent taken in ℤ: for `failures = 0` the Python expression
`2 ** -1` is the float `0.5`, so the value is rational. -/
def backoffOf (retryBase retryMax failures : Nat) : ℚ :=
  min ((retryBase : ℚ) * (2 : ℚ) ^ ((failures : ℤ) - 1)) (retryMax : ℚ)

/-- Poll-mode outcome handling (daemon.py lines 196-213): on success reset
the failure counter and clear `last_error`; on failure increment the
counter and back off. -/
def pollHandleOutcome (retryBase retryMax : Nat) (d : DaemonState) (ok : Bool) :
    DaemonState × Option ℚ :=
  if ok then
    ({ d with consecutive_failures := 0, last_error := none }, none)
  else
    let d := { d with consecutive_failures := d.consecutive_failures + 1 }
    (d, some (backoffOf retryBase retryMax d.consecutive_failures))

/-- Watcher-mode outcome handling (daemon.py lines 363-384): on success only
the agent status and snapshot are written — `consecutive_failures` and
`last_error` are left as they are; on failure the counter is read for the
backoff but never incremented. -/
def watcherHandleOutcome (retryBase retryMax : Nat) (d : DaemonState) (ok : Bool) :
    DaemonState × Option ℚ :=
  if ok then
    (d, none)
  else
    (d, some (backoffOf retryBase retryMax d.consecutive_failures))

/-- One poll-mode invocation round: `_process_prompt` then the
success/failure handling of `_run_poll_mode`. -/
def pollStep (retryBase retryMax : Nat) (provider : String) (timeoutSec : Nat)
    (d : DaemonState) (result : AgentRunResult) : DaemonState × Option ℚ :=
  let pr := process_prompt_result provider timeoutSec d result
  pollHandleOutcome retryBase retryMax pr.1 pr.2

/-- One watcher-mode invocation round: `_process_prompt` then the
success/failure handling of `_run_watcher_mode`. -/
def watcherStep (retryBase retryMax : Nat) (provider : String) (timeoutSec : Nat)
    (d : DaemonState) (result : AgentRunResult) : DaemonState × Option ℚ :=
  let pr := process_prompt_result provider timeoutSec d result
  watcherHandleOutcome retryBase retryMax pr.1 pr.2

/-! ## Watcher-mode loop iteration with fallible store calls
(daemon.py lines 341-390) -/

/-- A store-level failure surfaced by sqlite3: the 5-second lock wait
expired, or the backing store is unavailable. -/
inductive StoreErr where
  | lockTimeout
  | unavailable
deriving DecidableEq, Repr

/-- What one iteration of the watcher-mode loop decides to do next. -/
inductive IterOutcome where
  | waitIdle
  | processed
  | backoff (seconds : ℚ)
deriving DecidableEq, Repr

/-- The store responses one loop iteration consumes, each fallible: the
dequeue, the three `set_agent_status` calls the branches make, the
`find_lead_agent` and `send_message` of the alert path, and the external
invocation's result. -/
structure WatcherIterInput where
  popResult : Except StoreErr (Option CommsMessage)
  statusWorking : Except StoreErr Unit
  statusIdle : Except StoreErr Unit
  statusOnline : Except StoreErr Unit
  findLeadResult : Except StoreErr (Option String)
  alertSendResult : Except StoreErr Nat
  runResult : AgentRunResult

/-- `AgentDaemon._alert_lead_watcher` (daemon.py lines 428-438):
`watcher.find_lead_agent()` is called before the `try`, so a store error
there propagates; only the `watcher.send_message` call sits inside
`try`/`except Exception`, whose handler logs the failure and absorbs it. -/
def alert_lead_watcher (findLeadResult : Except StoreErr (Option String))
    (sendResult : Except StoreErr Nat) : Except StoreErr Unit := do
  let _lead ← findLeadResult
  match sendResult with
  | .ok _ => pure ()
  | .error _ => pure ()

/-- One iteration of `_run_watcher_mode`'s `while` body (daemon.py lines
342-384): dequeue; on empty mailbox set status idle and wait; otherwise
set status working, run `_process_prompt`, and on success set status
online, on failure compute the backoff and, at `consecutive_failures ≥ 3`,
call `_alert_lead_watcher` before sleeping.  The body itself contains no
`try`/`except`, so `Except` bind propagates every store error raised here
(`_write_state`, `_log` and the event waits touch only local state and
are not store calls). -/
def watcherIteration (retryBase retryMax : Nat) (provider : String) (timeoutSec : Nat)
    (d : DaemonState) (inp : WatcherIterInput) :
    Except StoreErr (DaemonState × IterOutcome) := do
  let msg ← inp.popResult
  match msg with
  | none => do
      let _ ← inp.statusIdle
      pure (d, .waitIdle)
  | some _ => do
      let _ ← inp.statusWorking
      let pr := process_prompt_result provider timeoutSec d inp.runResult
      if pr.2 then do
        let _ ← inp.statusOnline
        pure (pr.1, .processed)
      else do
        let b := backoffOf retryBase retryMax pr.1.consecutive_failures
        if pr.1.consecutive_failures ≥ 3 then do
          let _ ← alert_lead_watcher inp.findLeadResult inp.alertSendResult
          pure (pr.1, .backoff b)
        else
          pure (pr.1, .backoff b)

/-- The `while not stop` loop of `_run_watcher_mode`, driven by the
sequence of per-iteration environment responses (the list running out
models the stop event).  An error from an iteration ends the loop right
there: no later iteration runs. -/
def run_watcher_loop (retryBase retryMax : Nat) (provider : String) (timeoutSec : Nat)
    (d : DaemonState) : List WatcherIterInput → Except StoreErr DaemonState
  | [] => .ok d
  | inp :: rest => do
      let r ← watcherIteration retryBase retryMax provider timeoutSec d inp
      run_watcher_loop retryBase retryMax provider timeoutSec r.1 rest

/-- Python `try ... finally ...` with no `except` clause: the finaliser
always runs, and an exception from the body is re-raised afterwards
(unless the finaliser raises one of its own, which replaces it). -/
def tryFinallyE {α : Type} (body : Except StoreErr α)
    (finaliser : Except StoreErr Unit) : Except StoreErr α :=
  match body, finaliser with
  | .ok a, .ok _ => .ok a
  | .ok _, .error e2 => .error e2
  | .error e, .ok _ => .error e
  | .error _, .error e2 => .error e2

/-- `_run_watcher_mode` (daemon.py lines 341-390): the loop runs inside a
`try` whose only other clause is the `finally` that marks the agent
offline (itself a fallible store call).  There is no `except`, and
`cli.py` line 329 calls `daemon.run()` bare, so an `.error` result here
is the daemon process terminating with the propagated exception. -/
def run_watcher_mode (retryBase retryMax : Nat) (provider : String) (timeoutSec : Nat)
    (d : DaemonState) (inputs : List WatcherIterInput)
    (statusOffline : Except StoreErr Unit) : Except StoreErr DaemonState :=
  tryFinallyE (run_watcher_loop retryBase retryMax provider timeoutSec d inputs)
    statusOffline

/-! ## Stream-line rendering and compaction detection
(daemon.py lines 713-769) -/

/-- Python `pat in s` — substring containment over characters. -/
def charsStartWith : List Char → List Char → Bool
  | [], _ => true
  | _ :: _, [] => false
  | p :: ps, c :: cs => p == c && charsStartWith ps cs

/-- Does the pattern occur somewhere in the text? -/
def charsContain (s pat : List Char) : Bool :=
  match s with
  | [] => pat.isEmpty
  | _ :: rest => charsStartWith pat s || charsContain rest pat

/-- Python `pat in s` on strings. -/
def pyIn (pat s : String) : Bool := charsContain s.toList pat.toList

/-- Python `s.lower()` (ASCII case folding, as `Char.toLower` performs). -/
def pyLower (s : String) : String := ⟨s.toList.map Char.toLower⟩

/-- The fixed phrase list scanned for compaction markers. -/
def compactionMarkers : List String :=
  ["compaction", "compacted", "context window", "summarized prior",
    "summarised prior", "auto-compact"]

/-- `AgentDaemon._contains_compaction_marker` (daemon.py lines 759-769):
case-insensitive substring match against the fixed phrase list. -/
def contains_compaction_marker (text : String) : Bool :=
  let low := pyLower text
  compactionMarkers.any (fun marker => pyIn marker low)

/-- A decoded JSON value, as produced by `json.loads` (numbers restricted
to integers; no stream record in this development carries a float). -/
inductive Json where
  | null : Json
  | bool : Bool → Json
  | num : Int → Json
  | str : String → Json
  | arr : List Json → Json
  | obj : List (String × Json) → Json

/-- JSON string escaping as `json.dumps` performs it for the printable
ASCII text these records carry. -/
def escapeJsonChar (c : Char) : String :=
  if c == '"' then "\\\""
  else if c == '\\' then "\\\\"
  else if c == '\n' then "\\n"
  else if c == '\t' then "\\t"
  else if c == '\r' then "\\r"
  else String.singleton c

/-- Escape a whole string. -/
def escapeJson (s : String) : String := String.join (s.toList.map escapeJsonChar)

mutual

/-- `json.dumps` with its default separators `", "` and `": "`. -/
def Json.dumps : Json → String
  | .null => "null"
  | .bool b => if b then "true" else "false"
  | .num n => toString n
  | .str s => "\"" ++ escapeJson s ++ "\""
  | .arr items => "[" ++ dumpsArr items ++ "]"
  | .obj kvs => "\x7b" ++ dumpsObj kvs ++ "\x7d"

/-- Array elements joined by `", "`. -/
def dumpsArr : List Json → String
  | [] => ""
  | [x] => x.dumps
  | x :: y :: rest => x.dumps ++ ", " ++ dumpsArr (y :: rest)

/-- Object entries `"key": value` joined by `", "`. -/
def dumpsObj : List (String × Json) → String
  | [] => ""
  | [kv] => "\"" ++ escapeJson kv.1 ++ "\": " ++ kv.2.dumps
  | kv :: kv2 :: rest => "\"" ++ escapeJson kv.1 ++ "\": " ++ kv.2.dumps ++ ", " ++ dumpsObj (kv2 :: rest)

end

/-- The known human-readable fields collected by the renderer. -/
def textKeys : List String := ["text", "content", "delta", "output_text"]

mutual

/-- `AgentDaemon._extract_text_fragments` (daemon.py lines 741-757): walk
the decoded structure; a string value under a known text key is collected,
anything else is recursed into (the walk over a scalar yields nothing). -/
def extract_text_fragments : Json → List String
  | .obj kvs => extractFromObj kvs
  | .arr items => extractFromArr items
  | _ => []

/-- Walk the entries of a decoded object. -/
def extractFromObj : List (String × Json) → List String
  | [] => []
  | (k, v) :: rest =>
      (match v with
        | .str s => if textKeys.contains k then [s] else []
        | v' => extract_text_fragments v') ++ extractFromObj rest

/-- Walk the items of a decoded array. -/
def extractFromArr : List Json → List String
  | [] => []
  | x :: rest => extract_text_fragments x ++ extractFromArr rest

end

/-- First binding of a key in a decoded object (`dict.get`). -/
def lookupKey (k : String) : List (String × Json) → Option Json
  | [] => none
  | (k', v) :: rest => if k' == k then some v else lookupKey k rest

/-- Python `str()` of a decoded JSON value as interpolated by the
`f"[{type}] {message}"` rendering; the error/warning records rendered
there carry string messages, so only the `.str` case is exercised. -/
def pyStr : Json → String
  | .str s => s
  | .bool b => if b then "True" else "False"
  | .null => "None"
  | .num n => toString n
  | v => v.dumps

/-- Python `line.rstrip("\n")`. -/
def rstripNewline (s : String) : String :=
  ⟨(s.toList.reverse.dropWhile (fun c => c == '\n')).reverse⟩

/-- `AgentDaemon._render_stream_line` (daemon.py lines 713-739).  The
`json.loads` result is supplied as `decoded` (`none` when the line is not
valid JSON): scan the raw line for compaction markers; collect text
fragments from the decoded structure; if none and the record is tagged
error/warning, render `[type] message`; re-scan the rendered text and the
re-serialised payload for markers.  Returns the console text and the
compaction flag. -/
def render_stream_line (line : String) (decoded : Option Json) : String × Bool :=
  let raw := rstripNewline line
  if raw == "" then ("", false)
  else
    let compaction := contains_compaction_marker raw
    match decoded with
    | none => (raw ++ "\n", compaction)
    | some payload =>
        let rendered := String.join (extract_text_fragments payload)
        let rendered :=
          if rendered == "" then
            match payload with
            | .obj kvs =>
                match lookupKey "type" kvs with
                | some (.str t) =>
                    if t == "error" || t == "warning" then
                      let msg := match lookupKey "message" kvs with
                        | some v => pyStr v
                        | none => ""
                      "[" ++ t ++ "] " ++ msg ++ "\n"
                    else ""
                | _ => ""
            | _ => ""
          else rendered
        let compaction := compaction || contains_compaction_marker rendered
        let compaction := compaction ||
          (match payload with
            | .obj _ => contains_compaction_marker (pyLower (Json.dumps payload))
            | _ => false)
        (rendered, compaction)

/-! ## Watcher-mode prompt assembly (daemon.py lines 392-413) -/

/-- Python `s.strip()`: drop leading and trailing whitespace. -/
def pyStrip (s : String) : String :=
  ⟨(((s.toList.dropWhile Char.isWhitespace).reverse).dropWhile Char.isWhitespace).reverse⟩

/-- Python `s[:n]`: the first `n` characters. -/
def pyTake (s : String) (n : Nat) : String := ⟨s.toList.take n⟩

/-- `"\n\n".join(s for s in sections if s.strip())`. -/
def joinSections (sections : List String) : String :=
  String.intercalate "\n\n" (sections.filter (fun s => pyStrip s ≠ ""))

/-- `AgentDaemon._build_watcher_prompt`: the section strings (already built
by `_build_protocol_section`, `_build_rules_section`,
`_build_incoming_section` and the history block) are joined with blank
lines, then the prompt is hard-truncated to `max_prompt_chars` via
`prompt[:max_prompt_chars]` when it is longer. -/
def watcherSections (systemSection protocolSection historyBlock rulesSection incomingSection : String)
    (injectHistory : Bool) (bufferLen : Nat) : List String :=
  [systemSection, protocolSection]
    ++ (if injectHistory && bufferLen > 0 then [historyBlock] else [])
    ++ [rulesSection, incomingSection]

/-- The truncation step of `_build_watcher_prompt`. -/
def build_watcher_prompt (max_prompt_chars : Nat)
    (systemSection protocolSection historyBlock rulesSection incomingSection : String)
    (injectHistory : Bool) (bufferLen : Nat) : String :=
  let prompt := joinSections
    (watcherSections systemSection protocolSection historyBlock rulesSection incomingSection
      injectHistory bufferLen)
  if prompt.length > max_prompt_chars then pyTake prompt max_prompt_chars else prompt

/-! ## Store invariants and evolution relations -/

/-- Well-formedness of a store state: every message id is below the next
auto-assigned id, and ids are pairwise distinct. -/
def MailboxState.Inv (s : MailboxState) : Prop :=
  (∀ m ∈ s.messages, m.id < s.next_id) ∧ (s.messages.map Message.id).Nodup

/-- A message row may only have its read flag raised over time; every other
column is immutable. -/
def msgEvolves (a b : Message) : Prop :=
  b.id = a.id ∧ b.from_agent = a.from_agent ∧ b.to_agent = a.to_agent ∧
    b.content = a.content ∧ b.timestamp = a.timestamp ∧ b.is_cc = a.is_cc ∧
    b.cc_original_to = a.cc_original_to ∧ (a.read_flag = true → b.read_flag = true)

/-- How any store operation moves the state: the id counter never
decreases, broadcast read markers are never deleted, existing rows persist
(evolved), and every row either descends from an existing row or is new
(its id at least the old counter). -/
def storeEvolves (s s' : MailboxState) : Prop :=
  s.next_id ≤ s'.next_id ∧
    (∀ p ∈ s.broadcast_reads, p ∈ s'.broadcast_reads) ∧
    (∀ m ∈ s.messages, ∃ m' ∈ s'.messages, msgEvolves m m') ∧
    (∀ m' ∈ s'.messages, (∃ m ∈ s.messages, msgEvolves m m') ∨ s.next_id ≤ m'.id)

/-- Every row with this id has been marked read. -/
def directConsumed (s : MailboxState) (mid : Nat) : Prop :=
  ∀ m ∈ s.messages, m.id = mid → m.read_flag = true

/-! ## Concrete stream line of the compaction scenario -/

/-- The streamed line of the scenario (with the trailing newline the
stream reader delivers). -/
def c9Line : String :=
  "\x7b\"type\":\"error\",\"message\":\"context window exceeded, auto-compact triggered\"\x7d\n"

/-- Its `json.loads` decoding. -/
def c9Payload : Json :=
  .obj [("type", .str "error"),
    ("message", .str "context window exceeded, auto-compact triggered")]

/-! # Theorems -/

/-- C3: for a provider that supports resume, with `resume_ready` set the
resume-flavoured command is handed to the runner first; if it times out or
exits 0 its result is final and the fresh command is never invoked; if it
exits non-zero, `resume_ready` is cleared and exactly one fresh invocation
follows whose result is returned regardless of outcome; with
`resume_ready` unset only the fresh command is invoked. -/
theorem run_with_optional_resume_protocol (resumeResult freshResult : AgentRunResult) :
    ((resumeResult.timed_out = true ∨ resumeResult.exit_code = 0) →
      run_with_optional_resume true resumeResult freshResult = ⟨resumeResult, true, 1, 0⟩) ∧
    (resumeResult.timed_out = false → resumeResult.exit_code ≠ 0 →
      run_with_optional_resume true resumeResult freshResult = ⟨freshResult, false, 1, 1⟩) ∧
    (∀ r : AgentRunResult,
      run_with_optional_resume false r freshResult = ⟨freshResult, false, 0, 1⟩) := by
  refine ⟨fun h => ?_, fun h1 h2 => ?_, fun r => ?_⟩
  · rcases h with h | h <;> simp [run_with_optional_resume, h]
  · simp [run_with_optional_resume, h1, h2]
  · simp [run_with_optional_resume]

/-- Witness for C3: a resume attempt exiting 2 is followed by exactly one
fresh attempt whose result is final. -/
theorem run_with_optional_resume_protocol_witness :
    (⟨2, false, false, "codex", 0, 0⟩ : AgentRunResult).timed_out = false ∧
    (⟨2, false, false, "codex", 0, 0⟩ : AgentRunResult).exit_code ≠ 0 ∧
    run_with_optional_resume true ⟨2, false, false, "codex", 0, 0⟩
        ⟨0, false, false, "codex", 0, 0⟩
      = ⟨⟨0, false, false, "codex", 0, 0⟩, false, 1, 1⟩ :=
  ⟨rfl, by decide,
    (run_with_optional_resume_protocol ⟨2, false, false, "codex", 0, 0⟩
      ⟨0, false, false, "codex", 0, 0⟩).2.1 rfl (by decide)⟩

/-- C9: processing the streamed line
`\x7b"type":"error","message":"context window exceeded, auto-compact triggered"\x7d`
sets the compaction flag (the raw-line scan matches "context window" and
"auto-compact") and, since the structured decode finds no known text
field, renders the error-tagged record as `[error] message`. -/
theorem render_error_line_compaction :
    render_stream_line c9Line (some c9Payload)
      = ("[error] context window exceeded, auto-compact triggered\n", true) := by
  decide

/-- Python slicing `s[:n]` returns at most `n` characters. -/
theorem pyTake_length_le (s : String) (n : Nat) : (pyTake s n).length ≤ n := by
  show (s.toList.take n).length ≤ n
  simp

/-- C10: the watcher-mode prompt never exceeds `max_prompt_chars`, and when
the assembled sections exceed that limit the prompt is exactly the first
`max_prompt_chars` characters of the assembly. -/
theorem build_watcher_prompt_truncation
    (maxc : Nat) (sys proto hist rules inc : String) (inj : Bool) (blen : Nat) :
    (build_watcher_prompt maxc sys proto hist rules inc inj blen).length ≤ maxc ∧
    ((joinSections (watcherSections sys proto hist rules inc inj blen)).length > maxc →
      build_watcher_prompt maxc sys proto hist rules inc inj blen
        = pyTake (joinSections (watcherSections sys proto hist rules inc inj blen)) maxc) ∧
    ((joinSections (watcherSections sys proto hist rules inc inj blen)).length ≤ maxc →
      build_watcher_prompt maxc sys proto hist rules inc inj blen
        = joinSections (watcherSections sys proto hist rules inc inj blen)) := by
  refine ⟨?_, fun h => ?_, fun h => ?_⟩
  · by_cases h : (joinSections (watcherSections sys proto hist rules inc inj blen)).length > maxc
    · simpa [build_watcher_prompt, h] using
        pyTake_length_le (joinSections (watcherSections sys proto hist rules inc inj blen)) maxc
    · simp only [build_watcher_prompt, if_neg h]
      omega
  · simp [build_watcher_prompt, h]
  · simp [build_watcher_prompt, Nat.not_lt.mpr h]

/-- C2 (refuted on the code): a lock timeout raised by `pop_next_message`
terminates the watcher-mode daemon instead of being absorbed and retried:
the failing iteration ends in the error; the loop then ends there for
every possible continuation, so the operation is never retried on a later
iteration; and the surrounding `try`/`finally` re-raises the error after
the offline status write, terminating `run()` (which `cli.py` calls with
no handler).  By contrast the one store call the source does wrap in
`try`/`except` — the alert's `send_message` — has its error absorbed,
exactly as the handlers in the source dictate. -/
theorem watcher_store_error_terminates_loop :
    (∀ (d : DaemonState) (sw si so : Except StoreErr Unit)
        (fl : Except StoreErr (Option String)) (sr : Except StoreErr Nat)
        (r : AgentRunResult),
      watcherIteration 30 300 "claude" 600 d
          ⟨.error .lockTimeout, sw, si, so, fl, sr, r⟩
        = .error .lockTimeout) ∧
    (∀ (d : DaemonState) (sw si so : Except StoreErr Unit)
        (fl : Except StoreErr (Option String)) (sr : Except StoreErr Nat)
        (r : AgentRunResult) (rest : List WatcherIterInput),
      run_watcher_loop 30 300 "claude" 600 d
          (⟨.error .lockTimeout, sw, si, so, fl, sr, r⟩ :: rest)
        = .error .lockTimeout) ∧
    (∀ (d : DaemonState) (sw si so : Except StoreErr Unit)
        (fl : Except StoreErr (Option String)) (sr : Except StoreErr Nat)
        (r : AgentRunResult) (rest : List WatcherIterInput),
      run_watcher_mode 30 300 "claude" 600 d
          (⟨.error .lockTimeout, sw, si, so, fl, sr, r⟩ :: rest) (.ok ())
        = .error .lockTimeout) ∧
    (∀ (lead : Option String) (e : StoreErr),
      alert_lead_watcher (.ok lead) (.error e) = .ok ()) := by
  refine ⟨fun d sw si so fl sr r => rfl, fun d sw si so fl sr r rest => rfl,
    fun d sw si so fl sr r rest => rfl, fun lead e => rfl⟩

/-- C4 (refuted on the code): in watcher mode a failed invocation (exit 2)
followed by a successful one leaves `last_error` still set — the success
branch of `_run_watcher_mode` never clears it (and never resets the
failure counter, which also never increments). -/
theorem watcher_success_keeps_stale_error :
    (watcherStep 30 300 "claude" 600
        (watcherStep 30 300 "claude" 600 (DaemonState.start false)
            ⟨2, false, false, "claude", 0, 0⟩).1
        ⟨0, false, false, "claude", 0, 0⟩).1
      = ⟨0, some "claude exited with code 2", true, false⟩ := by
  decide

/-- C5 (refuted on the code): in watcher mode a failed invocation leaves
`consecutive_failures` at 0 — the increment is missing — and the computed
backoff is `min(30 · 2^(0−1), 300) = 15` (a Python float) rather than the
claimed 30 for the first failure. -/
theorem watcher_failure_no_increment_backoff_fifteen :
    (watcherStep 30 300 "claude" 600 (DaemonState.start false)
        ⟨2, false, false, "claude", 0, 0⟩).1.consecutive_failures = 0 ∧
    (watcherStep 30 300 "claude" 600 (DaemonState.start false)
        ⟨2, false, false, "claude", 0, 0⟩).2 = some (15 : ℚ) := by
  constructor
  · rfl
  · show some (backoffOf 30 300 0) = some (15 : ℚ)
    have h : ((0 : Nat) : ℤ) - 1 = -1 := by norm_num
    rw [backoffOf, h, zpow_neg_one]
    norm_num

/-- The poll-mode loop, in contrast, increments the counter and clamps the
backoff as specified: failures 1..5 give 30, 60, 120, 240, 300 seconds. -/
theorem poll_backoff_sequence :
    (List.range 5).map
        (fun n => (pollHandleOutcome 30 300 ⟨n, none, false, false⟩ false).2)
      = [some 30, some 60, some 120, some 240, some 300] := by
  simp only [List.range_succ, List.range_zero, List.map_append, List.map_cons, List.map_nil,
    pollHandleOutcome, backoffOf, if_neg Bool.false_ne_true]
  norm_num

/-! ### RollingBuffer lemmas -/

theorem sumLen_nil : sumLen [] = 0 := rfl

theorem sumLen_cons (c : String) (l : List String) :
    sumLen (c :: l) = c.length + sumLen l := by
  simp [sumLen]

theorem sumLen_append (l1 l2 : List String) :
    sumLen (l1 ++ l2) = sumLen l1 + sumLen l2 := by
  simp [sumLen]

/-- The retained chunk suffix always fits the budget. -/
theorem sumLen_maxChunkSuffixFit_le (B : Nat) (l : List String) :
    sumLen (maxChunkSuffixFit B l) ≤ B := by
  induction l with
  | nil => simp [maxChunkSuffixFit, sumLen_nil]
  | cons c rest ih =>
      by_cases h : sumLen (c :: rest) ≤ B <;> simp [maxChunkSuffixFit, h, ih]

/-- The eviction loop, started on a chunk list with its true total,
computes exactly the longest fitting suffix and its total. -/
theorem evictLoop_eq_maxChunkSuffixFit (B : Nat) (l : List String) :
    evictLoop B l (sumLen l) = (maxChunkSuffixFit B l, sumLen (maxChunkSuffixFit B l)) := by
  induction l with
  | nil => rfl
  | cons c rest ih =>
      by_cases h : sumLen (c :: rest) ≤ B
      · rw [evictLoop, maxChunkSuffixFit]
        simp [Nat.not_lt.mpr h, h]
      · have h' : B < sumLen (c :: rest) := Nat.not_le.mp h
        have hsub : sumLen (c :: rest) - c.length = sumLen rest := by
          rw [sumLen_cons]; omega
        rw [evictLoop, maxChunkSuffixFit]
        simp only [if_pos h', if_neg h, hsub]
        exact ih

/-- Evicting from an already-evicted list and then appending is the same
as evicting from the full history: suffixes dropped earlier would only
have grown. -/
theorem maxChunkSuffixFit_append (B : Nat) (l : List String) (t : String) :
    maxChunkSuffixFit B (maxChunkSuffixFit B l ++ [t]) = maxChunkSuffixFit B (l ++ [t]) := by
  induction l with
  | nil => rfl
  | cons c rest ih =>
      by_cases h : sumLen (c :: rest) ≤ B
      · rw [maxChunkSuffixFit, if_pos h]
      · have h2 : ¬ sumLen (c :: (rest ++ [t])) ≤ B := by
          rw [sumLen_cons] at *
          rw [sumLen_append] at *
          simp [sumLen] at *
          omega
        rw [maxChunkSuffixFit, if_neg h, ih, List.cons_append, maxChunkSuffixFit, if_neg h2]

/-- One non-empty `append` on a buffer holding the longest fitting suffix
of history `l` yields the longest fitting suffix of `l ++ [t]`. -/
theorem append_step (B : Nat) (b : RollingBuffer) (l : List String) (t : String)
    (ht : t ≠ "") (hmax : b.max_chars = B)
    (hchunks : b.chunks = maxChunkSuffixFit B l)
    (htotal : b.total_chars = sumLen b.chunks) :
    (b.append t).max_chars = B ∧
    (b.append t).chunks = maxChunkSuffixFit B (l ++ [t]) ∧
    (b.append t).total_chars = sumLen (b.append t).chunks := by
  have hne : (t == "") = false := by simpa using ht
  have htot : b.total_chars + t.length = sumLen (b.chunks ++ [t]) := by
    rw [htotal, sumLen_append, sumLen_cons, sumLen_nil]
    omega
  have hres : b.append t =
      { b with
        chunks := maxChunkSuffixFit B (l ++ [t])
        total_chars := sumLen (maxChunkSuffixFit B (l ++ [t])) } := by
    unfold RollingBuffer.append
    rw [hne]
    simp only [Bool.false_eq_true, if_false]
    rw [htot, hchunks, hmax, evictLoop_eq_maxChunkSuffixFit, maxChunkSuffixFit_append]
  rw [hres]
  exact ⟨hmax, rfl, rfl⟩

/-- Any sequence of appends leaves the buffer holding exactly the longest
fitting suffix of the non-empty appended chunks. -/
theorem appendAll_invariant (B : Nat) (texts : List String) (b : RollingBuffer)
    (l : List String) (hmax : b.max_chars = B)
    (hchunks : b.chunks = maxChunkSuffixFit B l)
    (htotal : b.total_chars = sumLen b.chunks) :
    (b.appendAll texts).max_chars = B ∧
    (b.appendAll texts).chunks
      = maxChunkSuffixFit B (l ++ texts.filter (fun t => t ≠ "")) ∧
    (b.appendAll texts).total_chars = sumLen (b.appendAll texts).chunks := by
  induction texts generalizing b l with
  | nil =>
      refine ⟨hmax, ?_, htotal⟩
      simpa [RollingBuffer.appendAll] using hchunks
  | cons t rest ih =>
      by_cases ht : t = ""
      · have hnoop : b.append t = b := by simp [RollingBuffer.append, ht]
        have := ih b l hmax hchunks htotal
        simpa [RollingBuffer.appendAll, hnoop, ht] using this
      · have hstep := append_step B b l t ht hmax hchunks htotal
        have := ih (b.append t) (l ++ [t]) hstep.1 hstep.2.1 hstep.2.2
        simpa [RollingBuffer.appendAll, ht, List.append_assoc] using this

/-- C6 counterexample: with `max_tokens = 1` (budget 4 characters),
appending "abc" then "xyz" evicts the whole "abc" chunk and leaves
snapshot "xyz" — not the 4-character suffix "cxyz" of the concatenation
of all appended text. -/
theorem rolling_buffer_char_suffix_refuted :
    ¬ (((RollingBuffer.ofTokens 1).appendAll ["abc", "xyz"]).snapshot
        = charSuffixWithin ((RollingBuffer.ofTokens 1).max_chars)
            (String.join ["abc", "xyz"])) := by
  decide

/-- C6 amended: after any sequence of appends the buffer size is at most
the budget `max_tokens × 4`; the snapshot is the concatenation, in order,
of the longest suffix of the non-empty appended chunks whose total length
fits the budget (eviction is chunk-granular, so a partial chunk is never
retained); appending the empty string changes nothing. -/
theorem rolling_buffer_chunk_suffix (max_tokens : Nat) (texts : List String) :
    ((RollingBuffer.ofTokens max_tokens).appendAll texts).size ≤ max_tokens * 4 ∧
    ((RollingBuffer.ofTokens max_tokens).appendAll texts).snapshot
      = String.join (maxChunkSuffixFit (max_tokens * 4) (texts.filter (fun t => t ≠ ""))) ∧
    (∀ b : RollingBuffer, b.append "" = b) := by
  have h := appendAll_invariant (max_tokens * 4) texts (RollingBuffer.ofTokens
    max_tokens) [] rfl rfl rfl
  refine ⟨?_, ?_, fun b => by simp [RollingBuffer.append]⟩
  · show ((RollingBuffer.ofTokens max_tokens).appendAll texts).total_chars ≤ max_tokens * 4
    rw [h.2.2, h.2.1]
    simpa using sumLen_maxChunkSuffixFit_le (max_tokens * 4) (texts.filter (fun t => t ≠ ""))
  · show String.join ((RollingBuffer.ofTokens max_tokens).appendAll texts).chunks = _
    rw [h.2.1]
    simp

/-! ### Mailbox store lemmas -/

theorem msgEvolves_refl (m : Message) : msgEvolves m m :=
  ⟨rfl, rfl, rfl, rfl, rfl, rfl, rfl, fun h => h⟩

theorem msgEvolves_trans {a b c : Message} (h1 : msgEvolves a b) (h2 : msgEvolves b c) :
    msgEvolves a c := by
  obtain ⟨e1, e2, e3, e4, e5, e6, e7, e8⟩ := h1
  obtain ⟨f1, f2, f3, f4, f5, f6, f7, f8⟩ := h2
  exact ⟨f1.trans e1, f2.trans e2, f3.trans e3, f4.trans e4, f5.trans e5,
    f6.trans e6, f7.trans e7, fun h => f8 (e8 h)⟩

/-- Marking a row read only evolves it. -/
theorem msgEvolves_markRead_fn (mid : Nat) (m : Message) :
    msgEvolves m (if m.id == mid then { m with read_flag := true } else m) := by
  by_cases h : m.id == mid
  · simp only [h, if_pos]
    exact ⟨rfl, rfl, rfl, rfl, rfl, rfl, rfl, fun _ => rfl⟩
  · simp only [h]
    exact msgEvolves_refl m

theorem markRead_map_id (mid : Nat) (l : List Message) :
    (markRead mid l).map Message.id = l.map Message.id := by
  unfold markRead
  rw [List.map_map]
  apply List.map_congr_left
  intro m _
  show (if (m.id == mid) = true then { m with read_flag := true } else m).id = m.id
  split <;> rfl

/-- Every row with the marked id has its flag raised afterwards. -/
theorem markRead_consumed (mid : Nat) (l : List Message) :
    ∀ m' ∈ markRead mid l, m'.id = mid → m'.read_flag = true := by
  intro m' hm' hid
  unfold markRead at hm'
  obtain ⟨m, hm, rfl⟩ := List.mem_map.mp hm'
  by_cases h : m.id == mid
  · simp [h]
  · exfalso
    rw [if_neg h] at hid
    exact h (by simpa using hid)

/-- Rows with a different id are untouched by `markRead`. -/
theorem markRead_frame (mid : Nat) (l : List Message) :
    ∀ m ∈ l, m.id ≠ mid → m ∈ markRead mid l := by
  intro m hm hne
  unfold markRead
  have : (if m.id == mid then { m with read_flag := true } else m) = m := by
    rw [if_neg (by simpa using hne)]
  rw [← this]
  exact List.mem_map_of_mem _ hm

theorem storeEvolves_refl (s : MailboxState) : storeEvolves s s :=
  ⟨le_refl _, fun _ h => h, fun m hm => ⟨m, hm, msgEvolves_refl m⟩,
    fun m' hm' => Or.inl ⟨m', hm', msgEvolves_refl m'⟩⟩

theorem storeEvolves_trans {s1 s2 s3 : MailboxState}
    (h1 : storeEvolves s1 s2) (h2 : storeEvolves s2 s3) : storeEvolves s1 s3 := by
  obtain ⟨a1, a2, a3, a4⟩ := h1
  obtain ⟨b1, b2, b3, b4⟩ := h2
  refine ⟨a1.trans b1, fun p hp => b2 p (a2 p hp), ?_, ?_⟩
  · intro m hm
    obtain ⟨m2, hm2, he2⟩ := a3 m hm
    obtain ⟨m3, hm3, he3⟩ := b3 m2 hm2
    exact ⟨m3, hm3, msgEvolves_trans he2 he3⟩
  · intro m3 hm3
    rcases b4 m3 hm3 with ⟨m2, hm2, he2⟩ | hnew
    · rcases a4 m2 hm2 with ⟨m1, hm1, he1⟩ | hnew
      · exact Or.inl ⟨m1, hm1, msgEvolves_trans he1 he2⟩
      · exact Or.inr (by rw [he2.1]; exact hnew)
    · exact Or.inr (a1.trans hnew)

/-- Existing markers survive `INSERT OR IGNORE`. -/
theorem insertReadMarker_super (agent : String) (mid : Nat) (reads : List (String × Nat)) :
    ∀ p ∈ reads, p ∈ insertReadMarker agent mid reads := by
  intro p hp
  unfold insertReadMarker
  split
  · exact hp
  · exact List.mem_append_left _ hp

/-- After `INSERT OR IGNORE` the marker is present. -/
theorem insertReadMarker_mem (agent : String) (mid : Nat) (reads : List (String × Nat)) :
    (agent, mid) ∈ insertReadMarker agent mid reads := by
  unfold insertReadMarker
  split
  · next h => simpa [List.contains] using h
  · exact List.mem_append_right _ (List.mem_singleton.mpr rfl)

/-- A state that only appends fresh-id rows, preserves markers, and does
not lower the counter evolves from the original. -/
theorem storeEvolves_of_append (s s' : MailboxState) (newMsgs : List Message)
    (hmsg : s'.messages = s.messages ++ newMsgs)
    (hfresh : ∀ m ∈ newMsgs, s.next_id ≤ m.id)
    (hnext : s.next_id ≤ s'.next_id)
    (hreads : s'.broadcast_reads = s.broadcast_reads) : storeEvolves s s' := by
  refine ⟨hnext, ?_, ?_, ?_⟩
  · intro p hp
    rw [hreads]
    exact hp
  · intro m hm
    exact ⟨m, by rw [hmsg]; exact List.mem_append_left _ hm, msgEvolves_refl m⟩
  · intro m' hm'
    rw [hmsg] at hm'
    rcases List.mem_append.mp hm' with h | h
    · exact Or.inl ⟨m', h, msgEvolves_refl m'⟩
    · exact Or.inr (hfresh m' h)

theorem send_message_storeEvolves (f t c : String) (cc : Option String) (now : String)
    (s : MailboxState) : storeEvolves s (send_message f t c cc now s).2 := by
  unfold send_message
  rcases cc with _ | ccName
  · exact storeEvolves_of_append _ _ [⟨s.next_id, f, t, c, now, false, false, none⟩]
      rfl (by simp) (Nat.le_succ _) rfl
  · by_cases h : ccName ≠ ""
    · dsimp only
      rw [if_pos h]
      refine storeEvolves_of_append _ _
        [⟨s.next_id, f, t, c, now, false, false, none⟩,
          ⟨s.next_id + 1, f, ccName, ccContent c t, now, false, true, some t⟩]
        (by simp) ?_ (by show s.next_id ≤ s.next_id + 1 + 1; omega) rfl
      intro m hm
      simp only [List.mem_cons, List.not_mem_nil, or_false] at hm
      rcases hm with rfl | rfl
      · exact le_refl _
      · exact Nat.le_succ _
    · dsimp only
      rw [if_neg h]
      exact storeEvolves_of_append _ _ [⟨s.next_id, f, t, c, now, false, false, none⟩]
        rfl (by simp) (Nat.le_succ _) rfl

theorem pop_next_message_storeEvolves (agent now : String) (s : MailboxState) :
    storeEvolves s (pop_next_message agent now s).2 := by
  unfold pop_next_message
  rcases hsel : selectNext agent s with _ | ⟨m, isb⟩
  · exact ⟨le_refl _, fun _ h => h, fun m hm => ⟨m, hm, msgEvolves_refl m⟩,
      fun m' hm' => Or.inl ⟨m', hm', msgEvolves_refl m'⟩⟩
  · rcases isb with _ | _
    · -- direct: messages become markRead
      refine ⟨le_refl _, fun p hp => hp, ?_, ?_⟩
      · intro mm hm
        refine ⟨if mm.id == m.id then { mm with read_flag := true } else mm, ?_,
          msgEvolves_markRead_fn m.id mm⟩
        exact List.mem_map_of_mem _ hm
      · intro m' hm'
        obtain ⟨mm, hmm, rfl⟩ := List.mem_map.mp hm'
        exact Or.inl ⟨mm, hmm, msgEvolves_markRead_fn m.id mm⟩
    · -- broadcast: marker inserted
      exact ⟨le_refl _, insertReadMarker_super agent m.id s.broadcast_reads,
        fun mm hm => ⟨mm, hm, msgEvolves_refl mm⟩,
        fun m' hm' => Or.inl ⟨m', hm', msgEvolves_refl m'⟩⟩

theorem register_agent_storeEvolves (n : String) (r d : Option String) (st now : String)
    (s : MailboxState) : storeEvolves s (register_agent n r d st now s) := by
  unfold register_agent
  split <;>
    exact ⟨le_refl _, fun _ h => h, fun m hm => ⟨m, hm, msgEvolves_refl m⟩,
      fun m' hm' => Or.inl ⟨m', hm', msgEvolves_refl m'⟩⟩

theorem set_agent_status_storeEvolves (a st now : String) (s : MailboxState) :
    storeEvolves s (set_agent_status a st now s) :=
  ⟨le_refl _, fun _ h => h, fun m hm => ⟨m, hm, msgEvolves_refl m⟩,
    fun m' hm' => Or.inl ⟨m', hm', msgEvolves_refl m'⟩⟩

theorem execOp_storeEvolves (op : Op) (s : MailboxState) : storeEvolves s (execOp op s) := by
  cases op with
  | send f t c cc now => exact send_message_storeEvolves f t c cc now s
  | pop a now => exact pop_next_message_storeEvolves a now s
  | register n r d st now => exact register_agent_storeEvolves n r d st now s
  | setStatus a st now => exact set_agent_status_storeEvolves a st now s

theorem runOps_storeEvolves (ops : List Op) (s : MailboxState) :
    storeEvolves s (runOps ops s) := by
  induction ops generalizing s with
  | nil => exact storeEvolves_refl s
  | cons op rest ih =>
      exact storeEvolves_trans (execOp_storeEvolves op s) (ih (execOp op s))

theorem init_Inv : MailboxState.init.Inv :=
  ⟨fun m hm => absurd hm (List.not_mem_nil m), List.nodup_nil⟩

/-- Appending one fresh row preserves well-formedness. -/
theorem append_row_Inv (s : MailboxState) (m : Message) (h : s.Inv) (hid : m.id = s.next_id) :
    MailboxState.Inv
      { s with messages := s.messages ++ [m], next_id := s.next_id + 1 } := by
  obtain ⟨hb, hn⟩ := h
  constructor
  · intro x hx
    rcases List.mem_append.mp hx with hx | hx
    · exact Nat.lt_succ_of_lt (hb x hx)
    · rw [List.mem_singleton.mp hx, hid]
      exact Nat.lt_succ_self _
  · rw [List.map_append]
    refine List.Nodup.append hn (by simp) ?_
    intro a ha hmem
    obtain ⟨x, hx, rfl⟩ := List.mem_map.mp ha
    have hlt := hb x hx
    have heq : x.id = m.id := by simpa using hmem
    rw [heq, hid] at hlt
    exact Nat.lt_irrefl _ hlt

theorem send_message_Inv (f t c : String) (cc : Option String) (now : String)
    (s : MailboxState) (h : s.Inv) : ((send_message f t c cc now s).2).Inv := by
  unfold send_message
  rcases cc with _ | ccName
  · exact append_row_Inv s _ h rfl
  · by_cases hcc : ccName ≠ ""
    · dsimp only
      rw [if_pos hcc]
      exact append_row_Inv _ _ (append_row_Inv s _ h rfl) rfl
    · dsimp only
      rw [if_neg hcc]
      exact append_row_Inv s _ h rfl

theorem pop_next_message_Inv (agent now : String) (s : MailboxState) (h : s.Inv) :
    ((pop_next_message agent now s).2).Inv := by
  obtain ⟨hb, hn⟩ := h
  unfold pop_next_message
  rcases hsel : selectNext agent s with _ | ⟨m, b⟩
  · exact ⟨hb, hn⟩
  · rcases b with _ | _
    · constructor
      · intro x hx
        obtain ⟨y, hy, rfl⟩ := List.mem_map.mp hx
        have := hb y hy
        by_cases hc : y.id == m.id <;> simp only [hc] <;> simpa using this
      · show ((markRead m.id s.messages).map Message.id).Nodup
        rw [markRead_map_id]
        exact hn
    · exact ⟨hb, hn⟩

theorem execOp_Inv (op : Op) (s : MailboxState) (h : s.Inv) : (execOp op s).Inv := by
  cases op with
  | send f t c cc now => exact send_message_Inv f t c cc now s h
  | pop a now => exact pop_next_message_Inv a now s h
  | register n r d st now =>
      obtain ⟨hb, hn⟩ := h
      show (register_agent n r d st now s).Inv
      unfold register_agent
      split <;> exact ⟨hb, hn⟩
  | setStatus a st now => exact h

theorem runOps_Inv (ops : List Op) (s : MailboxState) (h : s.Inv) : (runOps ops s).Inv := by
  induction ops generalizing s with
  | nil => exact h
  | cons op rest ih => exact ih (execOp op s) (execOp_Inv op s h)

/-- A consumed direct message stays consumed under any later operations. -/
theorem directConsumed_mono {s s' : MailboxState} (he : storeEvolves s s')
    {mid : Nat} (hmid : mid < s.next_id) (h : directConsumed s mid) :
    directConsumed s' mid := by
  intro m' hm' hid
  rcases he.2.2.2 m' hm' with ⟨m, hm, hev⟩ | hnew
  · exact hev.2.2.2.2.2.2.2 (h m hm (by rw [← hev.1, hid]))
  · omega

theorem touchAgent_spec (agent now : String) (rows : List AgentRow) :
    ∀ r' ∈ touchAgent agent now rows, r'.name = agent →
      r'.last_seen = now ∧ r'.last_inbox_check = now := by
  intro r' hr' hname
  unfold touchAgent at hr'
  obtain ⟨r, hr, rfl⟩ := List.mem_map.mp hr'
  by_cases h : r.name == agent
  · rw [if_pos h]
    exact ⟨rfl, rfl⟩
  · rw [if_neg h] at hname ⊢
    exact absurd (by simpa using hname) h

/-- Membership in the `UNION ALL` of the two dequeue branches. -/
theorem mem_unionCandidates {agent : String} {s : MailboxState} {m : Message} {b : Bool} :
    (m, b) ∈ unionCandidates agent s ↔
      m ∈ s.messages ∧
        ((b = false ∧ isDirectCandidate agent m = true) ∨
          (b = true ∧ isBroadcastCandidate s.broadcast_reads agent m = true)) := by
  unfold unionCandidates
  constructor
  · intro h
    rcases List.mem_append.mp h with h | h
    · obtain ⟨a, ha, heq⟩ := List.mem_map.mp h
      obtain ⟨ham, hcand⟩ := List.mem_filter.mp ha
      injection heq with h1 h2
      subst h1
      exact ⟨ham, Or.inl ⟨h2.symm, hcand⟩⟩
    · obtain ⟨a, ha, heq⟩ := List.mem_map.mp h
      obtain ⟨ham, hcand⟩ := List.mem_filter.mp ha
      injection heq with h1 h2
      subst h1
      exact ⟨ham, Or.inr ⟨h2.symm, hcand⟩⟩
  · rintro ⟨hm, ⟨rfl, hc⟩ | ⟨rfl, hc⟩⟩
    · exact List.mem_append_left _
        (List.mem_map.mpr ⟨m, List.mem_filter.mpr ⟨hm, hc⟩, rfl⟩)
    · exact List.mem_append_right _
        (List.mem_map.mpr ⟨m, List.mem_filter.mpr ⟨hm, hc⟩, rfl⟩)

/-- A selected row is a candidate of minimal id. -/
theorem selectNext_spec {agent : String} {s : MailboxState} {m : Message} {b : Bool}
    (h : selectNext agent s = some (m, b)) :
    (m, b) ∈ unionCandidates agent s ∧
      ∀ c ∈ unionCandidates agent s, m.id ≤ c.1.id := by
  unfold selectNext at h
  have hmem : (m, b) ∈ (unionCandidates agent s).argmin (fun p => p.1.id) :=
    Option.mem_def.mpr h
  exact ⟨List.argmin_mem hmem,
    fun c hc => List.le_of_mem_argmin (f := fun p => p.1.id) hc hmem⟩

/-- No selection means no candidate at all. -/
theorem selectNext_none {agent : String} {s : MailboxState}
    (h : selectNext agent s = none) : unionCandidates agent s = [] := by
  unfold selectNext at h
  exact List.argmin_eq_none.mp h

/-- Characterisation of a successful dequeue: the returned message comes
from the minimal candidate, the id counter is untouched, and the state
change is exactly the consumption marking (plus the registry touch). -/
theorem pop_some_spec {agent now : String} {s : MailboxState} {msg : CommsMessage}
    {s' : MailboxState} (h : pop_next_message agent now s = (some msg, s')) :
    ∃ m b, selectNext agent s = some (m, b) ∧ msg = commsOf m b ∧
      s'.next_id = s.next_id ∧
      (b = true → s'.messages = s.messages ∧
        s'.broadcast_reads = insertReadMarker agent m.id s.broadcast_reads) ∧
      (b = false → s'.messages = markRead m.id s.messages ∧
        s'.broadcast_reads = s.broadcast_reads) := by
  unfold pop_next_message at h
  rcases hsel : selectNext agent s with _ | ⟨m, b⟩
  · rw [hsel] at h
    exact absurd (congrArg Prod.fst h) (by simp)
  · rw [hsel] at h
    have h1 := congrArg Prod.fst h
    have h2 := congrArg Prod.snd h
    simp only at h1 h2
    rcases b with _ | _
    · refine ⟨m, false, rfl, ?_, ?_, by simp, fun _ => ?_⟩
      · exact (Option.some_inj.mp h1).symm
      · rw [← h2]
        rfl
      · rw [← h2]
        exact ⟨rfl, rfl⟩
    · refine ⟨m, true, rfl, ?_, ?_, fun _ => ?_, by simp⟩
      · exact (Option.some_inj.mp h1).symm
      · rw [← h2]
        rfl
      · rw [← h2]
        exact ⟨rfl, rfl⟩


theorem isDirectCandidate_iff {agent : String} {m : Message} :
    isDirectCandidate agent m = true ↔ m.to_agent = agent ∧ m.read_flag = false := by
  simp [isDirectCandidate]

theorem isBroadcastCandidate_iff {reads : List (String × Nat)} {agent : String} {m : Message} :
    isBroadcastCandidate reads agent m = true ↔
      m.to_agent = "all" ∧ (agent, m.id) ∉ reads := by
  simp [isBroadcastCandidate, List.contains]

theorem Inv_id_inj {s : MailboxState} (h : s.Inv) {a b : Message}
    (ha : a ∈ s.messages) (hb : b ∈ s.messages) (hid : a.id = b.id) : a = b :=
  List.inj_on_of_nodup_map h.2 ha hb hid

/-- The first component of a successful dequeue comes from the selection. -/
theorem pop_fst_some {agent now : String} {s : MailboxState} {msg : CommsMessage}
    (h : (pop_next_message agent now s).1 = some msg) :
    ∃ m b, selectNext agent s = some (m, b) ∧ msg = commsOf m b := by
  unfold pop_next_message at h
  rcases hsel : selectNext agent s with _ | ⟨m, b⟩
  · rw [hsel] at h
    exact absurd h (by simp)
  · rw [hsel] at h
    simp only at h
    exact ⟨m, b, rfl, (Option.some_inj.mp h).symm⟩

/-- Central delivery-order lemma: once an agent (not named like the
broadcast sentinel) has dequeued a message, any message it dequeues after
any further store operations has a strictly larger id. -/
theorem pop_pop_lt {X : String} (hX : X ≠ "all") {s s₁ : MailboxState} (hInv : s.Inv)
    {now₁ now₂ : String} {msg msg' : CommsMessage} {ops : List Op}
    (h₁ : pop_next_message X now₁ s = (some msg, s₁))
    (h₂ : (pop_next_message X now₂ (runOps ops s₁)).1 = some msg') :
    msg.id < msg'.id := by
  obtain ⟨m, b, hsel, hmsgEq, hnext, hbt, hbf⟩ := pop_some_spec h₁
  obtain ⟨hmem, hmin⟩ := selectNext_spec hsel
  obtain ⟨hmMem, hmCand⟩ := mem_unionCandidates.mp hmem
  obtain ⟨m', b', hsel', hmsgEq'⟩ := pop_fst_some h₂
  obtain ⟨hmem', _⟩ := selectNext_spec hsel'
  obtain ⟨hm'Mem, hm'Cand⟩ := mem_unionCandidates.mp hmem'
  have hs₁ : (pop_next_message X now₁ s).2 = s₁ := by rw [h₁]
  have hE0 : storeEvolves s s₁ := hs₁ ▸ pop_next_message_storeEvolves X now₁ s
  have hE1 : storeEvolves s₁ (runOps ops s₁) := runOps_storeEvolves ops s₁
  have hE : storeEvolves s (runOps ops s₁) := storeEvolves_trans hE0 hE1
  have hmlt : m.id < s.next_id := hInv.1 m hmMem
  have hmsgid : msg.id = m.id := by rw [hmsgEq]; rfl
  have hmsgid' : msg'.id = m'.id := by rw [hmsgEq']; rfl
  rw [hmsgid, hmsgid']
  by_cases hlt : m'.id < s.next_id
  · -- the later candidate descends from a row already present at the
    -- first dequeue; it was a candidate then, so its id is at least m.id,
    -- and consumption of m rules out equality
    rcases hE.2.2.2 m' hm'Mem with ⟨ms, hms, hev⟩ | hnew
    · have hidEq : m'.id = ms.id := hev.1
      have htoEq : m'.to_agent = ms.to_agent := hev.2.2.1
      have hflag : ms.read_flag = true → m'.read_flag = true := hev.2.2.2.2.2.2.2
      -- mₛ was a candidate of the same flavour at the first dequeue
      have hcandS : (ms, b') ∈ unionCandidates X s := by
        rcases hm'Cand with ⟨hb', hdc⟩ | ⟨hb', hbc⟩
        · obtain ⟨hto, hrf⟩ := isDirectCandidate_iff.mp hdc
          have hmsrf : ms.read_flag = false := by
            by_contra hcontra
            have := hflag (eq_true_of_ne_false hcontra)
            rw [this] at hrf
            cases hrf
          subst hb'
          exact mem_unionCandidates.mpr ⟨hms, Or.inl ⟨rfl,
            isDirectCandidate_iff.mpr ⟨htoEq ▸ hto, hmsrf⟩⟩⟩
        · obtain ⟨hto, hnr⟩ := isBroadcastCandidate_iff.mp hbc
          have hnrS : (X, ms.id) ∉ s.broadcast_reads := by
            intro hc
            exact hnr (hidEq ▸ hE.2.1 (X, ms.id) hc)
          subst hb'
          exact mem_unionCandidates.mpr ⟨hms, Or.inr ⟨rfl,
            isBroadcastCandidate_iff.mpr ⟨htoEq ▸ hto, hnrS⟩⟩⟩
      have hle : m.id ≤ m'.id := hidEq ▸ hmin (ms, b') hcandS
      have hne : m.id ≠ m'.id := by
        intro heq
        have hmsEqm : ms = m := Inv_id_inj hInv hms hmMem (by omega)
        rcases hmCand with ⟨hb, hdc⟩ | ⟨hb, hbc⟩
        · -- first dequeue was direct: row m is now consumed
          subst hb
          obtain ⟨hmsgs, _⟩ := hbf rfl
          have hcons1 : directConsumed s₁ m.id := by
            intro mm hmm hmmid
            rw [hmsgs] at hmm
            exact markRead_consumed m.id s.messages mm hmm hmmid
          have hcons : directConsumed (runOps ops s₁) m.id :=
            directConsumed_mono hE1 (by rw [hnext]; exact hmlt) hcons1
          have hm'flag : m'.read_flag = true := hcons m' hm'Mem heq.symm
          rcases hm'Cand with ⟨_, hdc'⟩ | ⟨_, hbc'⟩
          · obtain ⟨_, hrf'⟩ := isDirectCandidate_iff.mp hdc'
            rw [hm'flag] at hrf'
            cases hrf'
          · obtain ⟨hto', _⟩ := isBroadcastCandidate_iff.mp hbc'
            obtain ⟨htoX, _⟩ := isDirectCandidate_iff.mp hdc
            rw [htoEq, hmsEqm, htoX] at hto'
            exact hX hto'
        · -- first dequeue was broadcast: the read marker is now present
          subst hb
          obtain ⟨_, hreads⟩ := hbt rfl
          have hmark1 : (X, m.id) ∈ s₁.broadcast_reads := by
            rw [hreads]
            exact insertReadMarker_mem X m.id s.broadcast_reads
          have hmark : (X, m.id) ∈ (runOps ops s₁).broadcast_reads :=
            hE1.2.1 (X, m.id) hmark1
          rcases hm'Cand with ⟨_, hdc'⟩ | ⟨_, hbc'⟩
          · obtain ⟨hto', _⟩ := isDirectCandidate_iff.mp hdc'
            obtain ⟨htoAll, _⟩ := isBroadcastCandidate_iff.mp hbc
            rw [htoEq, hmsEqm, htoAll] at hto'
            exact hX hto'.symm
          · obtain ⟨_, hnr'⟩ := isBroadcastCandidate_iff.mp hbc'
            exact hnr' (heq ▸ hmark)
      omega
    · omega
  · omega

/-- C1: `pop_next_message` returns the lowest-id message among unread
direct messages to the agent and broadcasts without a read marker for the
agent (and returns none exactly when there is no candidate); it marks the
returned message consumed in the same call (read flag for direct, read
marker for broadcast); it refreshes the agent's registry row in every
case; and across any sequence of store operations from an empty store, a
given agent (agents are never named like the broadcast sentinel "all")
receives messages in non-decreasing id order and never receives the same
direct message twice. -/
theorem pop_next_message_delivery_order :
    (∀ (s : MailboxState) (agent now : String) (msg : CommsMessage) (s' : MailboxState),
      pop_next_message agent now s = (some msg, s') →
      ∃ m b, (m, b) ∈ unionCandidates agent s ∧ msg = commsOf m b ∧
        ∀ c ∈ unionCandidates agent s, msg.id ≤ c.1.id) ∧
    (∀ (s : MailboxState) (agent now : String),
      (pop_next_message agent now s).1 = none → unionCandidates agent s = []) ∧
    (∀ (s : MailboxState) (agent now : String) (msg : CommsMessage) (s' : MailboxState),
      pop_next_message agent now s = (some msg, s') →
      (msg.is_broadcast = true →
        (agent, msg.id) ∈ s'.broadcast_reads ∧ s'.messages = s.messages) ∧
      (msg.is_broadcast = false →
        directConsumed s' msg.id ∧ s'.broadcast_reads = s.broadcast_reads)) ∧
    (∀ (s : MailboxState) (agent now : String),
      ∀ r' ∈ ((pop_next_message agent now s).2).agents, r'.name = agent →
        r'.last_seen = now ∧ r'.last_inbox_check = now) ∧
    (∀ (X : String) (ops0 ops : List Op) (now₁ now₂ : String)
      (msg msg' : CommsMessage) (s₁ : MailboxState), X ≠ "all" →
      pop_next_message X now₁ (runOps ops0 MailboxState.init) = (some msg, s₁) →
      (pop_next_message X now₂ (runOps ops s₁)).1 = some msg' →
      msg.id ≤ msg'.id ∧ (msg.is_broadcast = false → msg' ≠ msg)) := by
  refine ⟨?_, ?_, ?_, ?_, ?_⟩
  · intro s agent now msg s' h
    obtain ⟨m, b, hsel, hmsgEq, _, _, _⟩ := pop_some_spec h
    obtain ⟨hmem, hmin⟩ := selectNext_spec hsel
    refine ⟨m, b, hmem, hmsgEq, ?_⟩
    intro c hc
    have : msg.id = m.id := by rw [hmsgEq]; rfl
    rw [this]
    exact hmin c hc
  · intro s agent now h
    unfold pop_next_message at h
    rcases hsel : selectNext agent s with _ | ⟨m, b⟩
    · exact selectNext_none hsel
    · rw [hsel] at h
      exact absurd h (by simp)
  · intro s agent now msg s' h
    obtain ⟨m, b, hsel, hmsgEq, hnext, hbt, hbf⟩ := pop_some_spec h
    have hib : msg.is_broadcast = b := by rw [hmsgEq]; rfl
    have hid : msg.id = m.id := by rw [hmsgEq]; rfl
    constructor
    · intro hb
      obtain ⟨hmsgs, hreads⟩ := hbt (by rw [← hib]; exact hb)
      refine ⟨?_, hmsgs⟩
      rw [hreads, hid]
      exact insertReadMarker_mem agent m.id s.broadcast_reads
    · intro hb
      obtain ⟨hmsgs, hreads⟩ := hbf (by rw [← hib]; exact hb)
      refine ⟨?_, hreads⟩
      intro mm hmm hmmid
      rw [hmsgs] at hmm
      exact markRead_consumed m.id s.messages mm hmm (by rw [← hid]; exact hmmid)
  · intro s agent now
    unfold pop_next_message
    rcases hsel : selectNext agent s with _ | ⟨m, b⟩
    · exact touchAgent_spec agent now s.agents
    · rcases b with _ | _
      · exact touchAgent_spec agent now _
      · exact touchAgent_spec agent now _
  · intro X ops0 ops now₁ now₂ msg msg' s₁ hX h1 h2
    have hlt := pop_pop_lt hX (runOps_Inv ops0 MailboxState.init init_Inv) h1 h2
    refine ⟨le_of_lt hlt, fun _ hEq => ?_⟩
    rw [hEq] at hlt
    exact absurd hlt (lt_irrefl _)

/-- Witness for C1: two direct sends to agent "x", then two dequeues:
the first returns message 1 leaving it marked read, the second returns
message 2 — ids in order, no repeat. -/
theorem pop_next_message_delivery_order_witness :
    (("x" : String) ≠ "all") ∧
    pop_next_message "x" "t3"
        (runOps [Op.send "lead" "x" "m1" none "t1", Op.send "lead" "x" "m2" none "t2"]
           MailboxState.init)
      = (some ⟨1, "lead", "x", "m1", "t1", false, false, none⟩,
          ⟨[⟨1, "lead", "x", "m1", "t1", true, false, none⟩,
            ⟨2, "lead", "x", "m2", "t2", false, false, none⟩], [], [], 3⟩) ∧
    (pop_next_message "x" "t4"
        (runOps []
          (⟨[⟨1, "lead", "x", "m1", "t1", true, false, none⟩,
             ⟨2, "lead", "x", "m2", "t2", false, false, none⟩], [], [], 3⟩ : MailboxState))).1
      = some ⟨2, "lead", "x", "m2", "t2", false, false, none⟩ ∧
    ((⟨1, "lead", "x", "m1", "t1", false, false, none⟩ : CommsMessage).id
        ≤ (⟨2, "lead", "x", "m2", "t2", false, false, none⟩ : CommsMessage).id ∧
      ((⟨1, "lead", "x", "m1", "t1", false, false, none⟩ : CommsMessage).is_broadcast = false →
        (⟨2, "lead", "x", "m2", "t2", false, false, none⟩ : CommsMessage)
          ≠ ⟨1, "lead", "x", "m1", "t1", false, false, none⟩)) :=
  ⟨by decide, by decide, by decide,
    pop_next_message_delivery_order.2.2.2.2 "x"
      [Op.send "lead" "x" "m1" none "t1", Op.send "lead" "x" "m2" none "t2"] []
      "t3" "t4" ⟨1, "lead", "x", "m1", "t1", false, false, none⟩
      ⟨2, "lead", "x", "m2", "t2", false, false, none⟩
      ⟨[⟨1, "lead", "x", "m1", "t1", true, false, none⟩,
        ⟨2, "lead", "x", "m2", "t2", false, false, none⟩], [], [], 3⟩
      (by decide) (by decide) (by decide)⟩

/-- C7: a broadcast message sent before agent X registers is still
delivered to X exactly once after registration: registration touches
neither `messages` nor `broadcast_reads`; when the broadcast row is the
lowest-id candidate for X the dequeue returns it; consuming it inserts a
read marker and leaves the `messages` table untouched; and no later
dequeue by X ever returns a message with that id again. -/
theorem broadcast_late_join_exactly_once :
    (∀ (n : String) (r d : Option String) (st now : String) (s : MailboxState),
      (register_agent n r d st now s).messages = s.messages ∧
      (register_agent n r d st now s).broadcast_reads = s.broadcast_reads) ∧
    (∀ (s : MailboxState) (X now : String) (m : Message),
      m ∈ s.messages → m.to_agent = "all" → (X, m.id) ∉ s.broadcast_reads →
      (∀ c ∈ unionCandidates X s, c = (m, true) ∨ m.id < c.1.id) →
      (pop_next_message X now s).1 = some (commsOf m true)) ∧
    (∀ (s : MailboxState) (X now : String) (msg : CommsMessage) (s' : MailboxState),
      pop_next_message X now s = (some msg, s') → msg.is_broadcast = true →
      s'.messages = s.messages ∧ (X, msg.id) ∈ s'.broadcast_reads) ∧
    (∀ (X : String) (ops0 ops : List Op) (now₁ now₂ : String)
      (msg msg' : CommsMessage) (s₁ : MailboxState), X ≠ "all" →
      pop_next_message X now₁ (runOps ops0 MailboxState.init) = (some msg, s₁) →
      (pop_next_message X now₂ (runOps ops s₁)).1 = some msg' →
      msg'.id ≠ msg.id) := by
  refine ⟨?_, ?_, ?_, ?_⟩
  · intro n r d st now s
    unfold register_agent
    split <;> exact ⟨rfl, rfl⟩
  · intro s X now m hm hto hnr hall
    have hmemU : (m, true) ∈ unionCandidates X s :=
      mem_unionCandidates.mpr ⟨hm, Or.inr ⟨rfl, isBroadcastCandidate_iff.mpr ⟨hto, hnr⟩⟩⟩
    have hsel : selectNext X s = some (m, true) := by
      unfold selectNext
      rw [List.argmin_eq_some_iff]
      refine ⟨hmemU, ?_, ?_⟩
      · intro a ha
        rcases hall a ha with rfl | hlt
        · exact le_refl _
        · exact le_of_lt hlt
      · intro a ha hle
        rcases hall a ha with rfl | hlt
        · exact le_refl _
        · exact absurd hle (not_le.mpr hlt)
    unfold pop_next_message
    rw [hsel]
  · intro s X now msg s' h hb
    obtain ⟨m, b, hsel, hmsgEq, hnext, hbt, hbf⟩ := pop_some_spec h
    have hib : msg.is_broadcast = b := by rw [hmsgEq]; rfl
    have hid : msg.id = m.id := by rw [hmsgEq]; rfl
    obtain ⟨hmsgs, hreads⟩ := hbt (by rw [← hib]; exact hb)
    refine ⟨hmsgs, ?_⟩
    rw [hreads, hid]
    exact insertReadMarker_mem X m.id s.broadcast_reads
  · intro X ops0 ops now₁ now₂ msg msg' s₁ hX h1 h2
    have hlt := pop_pop_lt hX (runOps_Inv ops0 MailboxState.init init_Inv) h1 h2
    omega

/-- Witness for C7: a broadcast sent at t1, agent "x" registering at t2,
and "x" dequeuing at t3 receives exactly that broadcast. -/
theorem broadcast_late_join_exactly_once_witness :
    ((⟨1, "lead", "all", "hi", "t1", false, false, none⟩ : Message)
        ∈ (runOps [Op.send "lead" "all" "hi" none "t1",
            Op.register "x" none none "online" "t2"] MailboxState.init).messages) ∧
    ((⟨1, "lead", "all", "hi", "t1", false, false, none⟩ : Message).to_agent = "all") ∧
    (("x", 1) ∉ (runOps [Op.send "lead" "all" "hi" none "t1",
        Op.register "x" none none "online" "t2"] MailboxState.init).broadcast_reads) ∧
    (∀ c ∈ unionCandidates "x" (runOps [Op.send "lead" "all" "hi" none "t1",
        Op.register "x" none none "online" "t2"] MailboxState.init),
      c = (⟨1, "lead", "all", "hi", "t1", false, false, none⟩, true) ∨
        (⟨1, "lead", "all", "hi", "t1", false, false, none⟩ : Message).id < c.1.id) ∧
    (pop_next_message "x" "t3"
        (runOps [Op.send "lead" "all" "hi" none "t1",
          Op.register "x" none none "online" "t2"] MailboxState.init)).1
      = some (commsOf ⟨1, "lead", "all", "hi", "t1", false, false, none⟩ true) :=
  ⟨by decide, rfl, by decide, by decide,
    broadcast_late_join_exactly_once.2.1
      (runOps [Op.send "lead" "all" "hi" none "t1",
        Op.register "x" none none "online" "t2"] MailboxState.init)
      "x" "t3" ⟨1, "lead", "all", "hi", "t1", false, false, none⟩
      (by decide) rfl (by decide) (by decide)⟩

/-- C8: `send_message` with a cc recipient inserts exactly two rows — the
primary row to the recipient with `is_cc = 0` and the content as given,
and a second row to the cc name with `is_cc = 1`, `cc_original_to` set and
the content annotated with the original recipient — returning the primary
row's id; and a dequeue never changes any row other than the one it
returns, so consuming either of the two rows leaves the other intact. -/
theorem send_message_cc_rows :
    (∀ (s : MailboxState) (f t c Y now : String), Y ≠ "" →
      (send_message f t c (some Y) now s).2.messages
        = s.messages ++
            [⟨s.next_id, f, t, c, now, false, false, none⟩,
              ⟨s.next_id + 1, f, Y, ccContent c t, now, false, true, some t⟩] ∧
      (send_message f t c (some Y) now s).2.next_id = s.next_id + 2 ∧
      (send_message f t c (some Y) now s).1 = s.next_id) ∧
    (∀ (s : MailboxState) (agent now : String) (msg : CommsMessage) (s' : MailboxState),
      pop_next_message agent now s = (some msg, s') →
      ∀ m ∈ s.messages, m.id ≠ msg.id → m ∈ s'.messages) := by
  constructor
  · intro s f t c Y now hY
    unfold send_message
    dsimp only
    rw [if_pos hY]
    exact ⟨by simp, rfl, rfl⟩
  · intro s agent now msg s' h m hm hne
    obtain ⟨m0, b, hsel, hmsgEq, hnext, hbt, hbf⟩ := pop_some_spec h
    have hid : msg.id = m0.id := by rw [hmsgEq]; rfl
    rcases b with _ | _
    · obtain ⟨hmsgs, _⟩ := hbf rfl
      rw [hmsgs]
      exact markRead_frame m0.id s.messages m hm (by rw [← hid]; exact hne)
    · obtain ⟨hmsgs, _⟩ := hbt rfl
      rw [hmsgs]
      exact hm

/-- Witness for C8: sending "hello" to "x" cc "y" from an empty store
yields the two rows with ids 1 and 2 and returns 1; dequeuing the primary
as "x" leaves the cc row (id 2) untouched. -/
theorem send_message_cc_rows_witness :
    (("y" : String) ≠ "") ∧
    (send_message "lead" "x" "hello" (some "y") "t1" MailboxState.init).2.messages
      = [⟨1, "lead", "x", "hello", "t1", false, false, none⟩,
          ⟨2, "lead", "y", ccContent "hello" "x", "t1", false, true, some "x"⟩] ∧
    (send_message "lead" "x" "hello" (some "y") "t1" MailboxState.init).1 = 1 ∧
    pop_next_message "x" "t2" (send_message "lead" "x" "hello" (some "y") "t1"
        MailboxState.init).2
      = (some ⟨1, "lead", "x", "hello", "t1", false, false, none⟩,
          ⟨[⟨1, "lead", "x", "hello", "t1", true, false, none⟩,
            ⟨2, "lead", "y", ccContent "hello" "x", "t1", false, true, some "x"⟩],
            [], [], 3⟩) ∧
    ((⟨2, "lead", "y", ccContent "hello" "x", "t1", false, true, some "x"⟩ : Message)
      ∈ (⟨[⟨1, "lead", "x", "hello", "t1", true, false, none⟩,
            ⟨2, "lead", "y", ccContent "hello" "x", "t1", false, true, some "x"⟩],
            [], [], 3⟩ : MailboxState).messages) :=
  ⟨by decide, by decide, by decide, by decide,
    send_message_cc_rows.2
      (send_message "lead" "x" "hello" (some "y") "t1" MailboxState.init).2
      "x" "t2" ⟨1, "lead", "x", "hello", "t1", false, false, none⟩
      ⟨[⟨1, "lead", "x", "hello", "t1", true, false, none⟩,
        ⟨2, "lead", "y", ccContent "hello" "x", "t1", false, true, some "x"⟩],
        [], [], 3⟩
      (by decide)
      ⟨2, "lead", "y", ccContent "hello" "x", "t1", false, true, some "x"⟩
      (by decide) (by decide)⟩

/-- Witness for C10: with cap 10 the assembled sections are longer than the
cap and the prompt is their first 10 characters. -/
theorem build_watcher_prompt_truncation_witness :
    (joinSections (watcherSections "sys" "proto" "h" "rules" "incoming" false 0)).length > 10 ∧
    build_watcher_prompt 10 "sys" "proto" "h" "rules" "incoming" false 0
      = pyTake (joinSections (watcherSections "sys" "proto" "h" "rules" "incoming" false 0)) 10 :=
  ⟨by decide,
    (build_watcher_prompt_truncation 10 "sys" "proto" "h" "rules" "incoming" false 0).2.1
      (by decide)⟩

end Swarm
